import Mathlib

/-!
AI Journal: suggestion timing and ghost text.

A shallow embedding of `src/App.js`: the state held by the `AIJournal` component
(`entry`, `suggestion`, `error`, `isLoading`, the pending debounce timeout and the
completion calls it has issued), its event handlers, the asynchronous `getSuggestion`
split at its `await`, the `useTypewriter` hook and the ghost overlay of `GhostTextarea`.

JavaScript strings are modelled by `String`; every `Char` stands for one UTF-16 code unit,
so `length`, `charAt` and `slice` count list positions.
-/

namespace Journal

/-! ## JavaScript string primitives used by the source -/

/-- JavaScript `s.charAt(i)`: the one-unit string at index `i`, the empty string when `i` is
out of range (negative, or at least `s.length`). -/
def charAt (s : String) (i : Int) : String :=
  if i < 0 then "" else String.mk ((s.data.drop i.toNat).take 1)

/-- JavaScript `s.slice(start)`: a negative `start` counts from the end, and the index is
clamped to `[0, s.length]`. -/
def slice (s : String) (start : Int) : String :=
  let len : Int := s.length
  let k : Int := if start < 0 then max (len + start) 0 else min start len
  String.mk (s.data.drop k.toNat)

/-- Code points that `String.prototype.trim` strips: ECMAScript WhiteSpace and
LineTerminator. -/
def isWhiteSpace (c : Char) : Bool :=
  let n := c.toNat
  n = 0x09 || n = 0x0A || n = 0x0B || n = 0x0C || n = 0x0D || n = 0x20 || n = 0xA0 ||
  n = 0x1680 || (0x2000 ≤ n && n ≤ 0x200A) || n = 0x2028 || n = 0x2029 || n = 0x202F ||
  n = 0x205F || n = 0x3000 || n = 0xFEFF

/-- JavaScript `s.trim()`: white space removed from both ends. -/
def trim (s : String) : String :=
  String.mk (((s.data.dropWhile isWhiteSpace).reverse.dropWhile isWhiteSpace).reverse)

/-! ## Ghost overlay (`GhostTextarea`, lines 34-80) -/

/-- The closure `getSuggestionDisplay` of `GhostTextarea` (lines 46-51), with the `value`
prop and the typewriter's `displayedText` it reads made explicit. -/
def getSuggestionDisplay (value displayedText : String) : String :=
  if displayedText = "" then ""
  else
    let lastChar := slice value (-1)
    let needsSpace : Bool := lastChar ≠ " " && lastChar ≠ "" && decide (value.length > 0)
    (if needsSpace then " " else "") ++ displayedText

/-- Text content of the ghost `div` (lines 73-76): the value followed by the suggestion
span. -/
def ghostText (value displayedText : String) : String :=
  value ++ getSuggestionDisplay value displayedText

/-! ## Component state -/

/-- A pending `setTimeout` of the debounce effect (lines 125-131): milliseconds left before
it fires and the `entry` captured by its closure. -/
structure Timeout where
  remaining : Nat
  text : String
  deriving DecidableEq, Repr

/-- Arguments of `openai.chat.completions.create` (lines 95-103). The constant
`temperature: 0.7` carries no information and is left out. -/
structure Request where
  system : String
  user : String
  model : String
  max_tokens : Nat
  deriving DecidableEq, Repr

/-- A completion call that has been issued, and whether its promise has settled. -/
structure Call where
  request : Request
  settled : Bool
  deriving DecidableEq, Repr

/-- State of the `AIJournal` component (lines 82-86), together with the pending debounce
timeout and the trace of completion calls. -/
structure AIJournal where
  entry : String
  suggestion : String
  darkMode : Bool
  error : Option String
  isLoading : Bool
  debounce : Option Timeout
  calls : List Call
  deriving DecidableEq, Repr

/-- Delay of the debounce `setTimeout` (line 131), in milliseconds. -/
def debounceDelay : Nat := 500

/-- State after the first render: all `useState` initial values, and the debounce effect
has run once, arming a timeout for the empty entry. -/
def mount : AIJournal :=
  { entry := "", suggestion := "", darkMode := false, error := none, isLoading := false,
    debounce := some ⟨debounceDelay, ""⟩, calls := [] }

/-- The state setter `setEntry`. The effect of lines 124-134 depends on `entry` (and on
`getSuggestion`, which `useCallback` keeps stable), so a changed entry runs its cleanup
(`clearTimeout`) and arms a fresh timeout capturing the new entry; an unchanged entry
does not re-run it. -/
def setEntry (s : AIJournal) (v : String) : AIJournal :=
  if v = s.entry then s else { s with entry := v, debounce := some ⟨debounceDelay, v⟩ }

/-- The state setter `setSuggestion`. -/
def setSuggestion (s : AIJournal) (v : String) : AIJournal :=
  { s with suggestion := v }

/-! ## Keyboard and input handlers -/

/-- The handler `handleKeyDown` (lines 136-143) applied to a key-down event with the given
`key`. -/
def handleKeyDown (s : AIJournal) (key : String) : AIJournal :=
  if key = "Tab" ∧ s.suggestion ≠ "" then
    setSuggestion (setEntry s (s.entry ++ " " ++ s.suggestion)) ""
  else s

/-- Whether `handleKeyDown` calls `e.preventDefault()` (line 138). -/
def preventsDefault (s : AIJournal) (key : String) : Bool :=
  key = "Tab" && s.suggestion ≠ ""

/-- The handler `handleInputChange` (lines 145-149) applied to a change event whose target
value is `value`. -/
def handleInputChange (s : AIJournal) (value : String) : AIJournal :=
  setSuggestion (setEntry s value) ""

/-- One keystroke in the textarea: the key-down handler runs; when the default action was
not prevented and the key edits the text, the browser then fires the change event with
the new value (`input = some v`). Keys that do not edit the text have `input = none`. -/
def keystroke (s : AIJournal) (key : String) (input : Option String) : AIJournal :=
  let s1 := handleKeyDown s key
  match preventsDefault s key, input with
  | false, some v => handleInputChange s1 v
  | _, _ => s1

/-! ## Completion service -/

/-- The `message` of a candidate; `content` is `none` when the service sends `null`. -/
structure Message where
  content : Option String
  deriving DecidableEq, Repr

/-- One element of `chatCompletion.choices`. -/
structure Choice where
  message : Message
  deriving DecidableEq, Repr

/-- The value the completion promise resolves to; `choices` is `none` when the field is
missing. -/
structure ChatCompletion where
  choices : Option (List Choice)
  deriving DecidableEq, Repr

/-- A thrown error object; `message` is `none` when the property is absent. -/
structure JSError where
  message : Option String
  deriving DecidableEq, Repr

/-- How the awaited completion promise (line 95) settles. -/
inductive Outcome where
  | resolved (r : ChatCompletion)
  | rejected (e : JSError)
  deriving DecidableEq, Repr

/-- A response with the single candidate `content`. -/
def completion (content : String) : Outcome :=
  Outcome.resolved ⟨some [⟨⟨some content⟩⟩]⟩

/-- The system message of line 97. -/
def systemMessage : String :=
  "You are an AI writing assistant helping to continue journal entries. Your task is to provide short, contextual continuations to the user's input, focusing on completing the current thought or sentence without repeating any part of the existing text."

/-- The instruction that precedes the entry in the template literal of line 93. -/
def promptHead : String :=
  "Continue the following journal entry. Provide only the next few words to complete the current thought or sentence. Do not repeat any part of the existing text:\n\nJournal entry: "

/-- The template literal `prompt` of line 93. -/
def prompt (text : String) : String :=
  promptHead ++ text

/-- The request object built at lines 95-103 for the entry `text`. -/
def createRequest (text : String) : Request :=
  { system := systemMessage, user := prompt text, model := "gpt-4o-mini", max_tokens := 4 }

/-- The fallback of line 118. -/
def fallbackMessage : String :=
  "An error occurred while fetching the suggestion."

/-- Message of the `TypeError` raised by `newSuggestion.trim()` (line 109) when the content
is `null`; the wording is the engine's, only its being non-empty matters. -/
def nullContentMessage : String :=
  "Cannot read properties of null (reading 'trim')"

/-- The expression `error.message || fallback` of line 118: an absent or empty message is
falsy. -/
def errorText (e : JSError) : String :=
  match e.message with
  | some m => if m = "" then fallbackMessage else m
  | none => fallbackMessage

/-- The part of `getSuggestion` (lines 89-103) that runs before the `await`: the loading
flag is raised and the completion call for `text` is issued. -/
def getSuggestionCall (s : AIJournal) (text : String) : AIJournal :=
  { s with isLoading := true, calls := s.calls ++ [⟨createRequest text, false⟩] }

/-- The part of `getSuggestion` (lines 105-121) that runs when the awaited promise settles:
the `try` continuation on a resolved promise, the `catch` block on a rejected one (or on
the `TypeError` of a `null` content), then `finally`. -/
def getSuggestionSettle (s : AIJournal) (o : Outcome) : AIJournal :=
  let s1 : AIJournal :=
    match o with
    | Outcome.resolved r =>
      match r.choices with
      | some (c :: _) =>
        match c.message.content with
        | some newSuggestion => setSuggestion s (trim newSuggestion)
        | none => { s with error := some nullContentMessage }
      | _ => setSuggestion s ""
    | Outcome.rejected e => { s with error := some (errorText e) }
  { s1 with isLoading := false }

/-- A whole run of `getSuggestion(text)` with nothing happening between the call and the
settling of its promise. -/
def getSuggestion (s : AIJournal) (text : String) (o : Outcome) : AIJournal :=
  getSuggestionSettle (getSuggestionCall s text) o

/-- The error banner of lines 177-182 is rendered when `error` is truthy. -/
def errorBannerShown (s : AIJournal) : Bool :=
  match s.error with
  | some m => m ≠ ""
  | none => false

/-! ## Debounce effect and the event loop -/

/-- The callback of the debounce timeout (lines 126-130), `text` being the entry captured
by its closure. -/
def debounceFire (s : AIJournal) (text : String) : AIJournal :=
  if text.length > 0 then getSuggestionCall s text else setSuggestion s ""

/-- One millisecond elapses: a pending timeout either comes one millisecond closer or,
when its delay is used up, fires. -/
def tick (s : AIJournal) : AIJournal :=
  match s.debounce with
  | none => s
  | some t =>
    if t.remaining ≤ 1 then debounceFire { s with debounce := none } t.text
    else { s with debounce := some { t with remaining := t.remaining - 1 } }

/-- The state after `n` milliseconds without any other event. -/
def advance (n : Nat) (s : AIJournal) : AIJournal :=
  tick^[n] s

/-- The promise of call number `k` settles with outcome `o`; a call that does not exist or
has already settled cannot settle. -/
def settle (s : AIJournal) (k : Nat) (o : Outcome) : AIJournal :=
  match s.calls[k]? with
  | some c =>
    if c.settled then s
    else getSuggestionSettle { s with calls := s.calls.set k { c with settled := true } } o
  | none => s

/-- The "New Suggestion" button (lines 184-195): disabled while loading, otherwise
`getSuggestion(entry)` starts. -/
def newSuggestionClick (s : AIJournal) : AIJournal :=
  if s.isLoading then s else getSuggestionCall s s.entry

/-- The "Clear Entry" button (lines 207-219). -/
def clearEntryClick (s : AIJournal) : AIJournal :=
  setSuggestion (setEntry s "") ""

/-- Events of the UI event loop. -/
inductive Event where
  | tick
  | keyDown (key : String)
  | change (value : String)
  | newSuggestion
  | clearEntry
  | settle (k : Nat) (o : Outcome)
  deriving DecidableEq, Repr

/-- The transition taken on one event. -/
def step (s : AIJournal) : Event → AIJournal
  | Event.tick => tick s
  | Event.keyDown key => handleKeyDown s key
  | Event.change value => handleInputChange s value
  | Event.newSuggestion => newSuggestionClick s
  | Event.clearEntry => clearEntryClick s
  | Event.settle k o => settle s k o

/-- The state after a sequence of events. -/
def run (s : AIJournal) (es : List Event) : AIJournal :=
  es.foldl step s

/-- Every pending debounce timeout captured the current entry. -/
def Consistent (s : AIJournal) : Prop :=
  ∀ t, s.debounce = some t → t.text = s.entry

/-- The requests of all calls issued so far, in order of issue. -/
def requests (s : AIJournal) : List Request :=
  s.calls.map Call.request

/-! ## Typewriter hook (`useTypewriter`, lines 10-32) -/

/-- State of one `useTypewriter` instance: its two `useState` cells, the counter `i` of the
running effect, and whether its interval is active. -/
structure Typewriter where
  displayedText : String
  isTyping : Bool
  i : Int
  timer : Bool
  deriving DecidableEq, Repr

/-- The hook before its effect has run (lines 11-12). -/
def Typewriter.initial : Typewriter :=
  { displayedText := "", isTyping := false, i := -1, timer := false }

/-- The effect of lines 14-30, run when `text` changes: the cleanup of the previous run
clears its interval, the displayed text is reset, and for a non-empty text a new interval
starts with `i = -1`. -/
def useTypewriter (prev : Typewriter) (text : String) : Typewriter :=
  if text = "" then { prev with displayedText := "", timer := false }
  else { displayedText := "", isTyping := true, i := -1, timer := true }

/-- The interval callback of lines 19-27. The updater passed to `setDisplayedText` closes
over the mutable counter `i` and reads it when React runs it: at the call
(`deferred = false`), or at the next render, after `i++` (`deferred = true`). React settles
this for each call on its own. -/
def typewriterTick (deferred : Bool) (text : String) (tw : Typewriter) : Typewriter :=
  if tw.timer then
    if tw.i < text.length then
      { tw with
        displayedText := tw.displayedText ++ charAt text (if deferred then tw.i + 1 else tw.i),
        i := tw.i + 1 }
    else { tw with timer := false, isTyping := false }
  else tw

/-- The hook state `n` interval ticks after the effect ran for `text`; `sched k` tells
whether the updater of tick number `k` (counted from 0) is run at the next render. -/
def typewriterRun (sched : Nat → Bool) (prev : Typewriter) (text : String) : Nat → Typewriter
  | 0 => useTypewriter prev text
  | n + 1 => typewriterTick (sched n) text (typewriterRun sched prev text n)

/-- The timing in which React runs the updaters of the first two ticks at the call and all
later ones at the next render. -/
def eagerTwice (k : Nat) : Bool :=
  decide (2 ≤ k)

/-- The separator of the spacing policy: one space after a non-empty entry that does not
end in a space, nothing otherwise. -/
def separator (entry : String) : String :=
  if entry ≠ "" ∧ entry.data.getLast? ≠ some ' ' then " " else ""

/-! # Theorems -/

/-! ## String lemmas -/
theorem slice_last_concat (l : List Char) (c : Char) :
    slice (String.mk (l ++ [c])) (-1) = String.mk [c] := by
  have h : ((String.mk (l ++ [c])).length : Int) = (l.length : Int) + 1 := by
    simp [String.length]
  simp only [slice, h]
  have hk : (if (-1 : Int) < 0 then max ((l.length : Int) + 1 + -1) 0
      else min (-1) ((l.length : Int) + 1)).toNat = l.length := by
    simp
  rw [hk]
  simp

theorem slice_last_empty : slice "" (-1) = "" := by decide

theorem string_cases (s : String) :
    s = "" ∨ ∃ l c, s = String.mk (l ++ [c]) := by
  rcases s with ⟨d⟩
  rcases List.eq_nil_or_concat d with h | ⟨l, c, h⟩
  · left; subst h; rfl
  · right; exact ⟨l, c, by rw [h, List.concat_eq_append]⟩

theorem mk_singleton_ne_empty (c : Char) : String.mk [c] ≠ "" := by
  intro h
  have := congrArg String.data h
  simp at this

theorem mk_singleton_eq_space (c : Char) : String.mk [c] = " " ↔ c = ' ' := by
  constructor
  · intro h
    have := congrArg String.data h
    simpa using this
  · rintro rfl; rfl

theorem getSuggestionDisplay_eq (E D : String) (hD : D ≠ "") :
    getSuggestionDisplay E D = separator E ++ D := by
  rcases string_cases E with rfl | ⟨l, c, rfl⟩
  · simp [getSuggestionDisplay, hD, slice_last_empty, separator]
  · have hne : String.mk (l ++ [c]) ≠ "" := by
      intro h
      have := congrArg String.data h
      simp at this
    simp [getSuggestionDisplay, hD, slice_last_concat, separator, hne,
      mk_singleton_ne_empty, mk_singleton_eq_space, String.length]

theorem dropWhile_head_not {α : Type} (p : α → Bool) (l : List α) (c : α)
    (h : (l.dropWhile p).head? = some c) : p c = false := by
  induction l with
  | nil => simp at h
  | cons a t ih =>
    by_cases ha : p a = true
    · rw [List.dropWhile_cons_of_pos ha] at h
      exact ih h
    · rw [List.dropWhile_cons_of_neg ha] at h
      simp at h
      subst h
      simpa using ha

/-- What `trim` returns: the argument is the result with white space around it, and the
result neither starts nor ends with white space. -/
theorem trim_spec (s : String) :
    ∃ pre post : List Char, s.data = pre ++ (trim s).data ++ post ∧
      (∀ c ∈ pre, isWhiteSpace c = true) ∧ (∀ c ∈ post, isWhiteSpace c = true) ∧
      (∀ c, (trim s).data.head? = some c → isWhiteSpace c = false) ∧
      (∀ c, (trim s).data.getLast? = some c → isWhiteSpace c = false) := by
  set m := s.data.dropWhile isWhiteSpace with hm
  have h1 : s.data = s.data.takeWhile isWhiteSpace ++ m :=
    (List.takeWhile_append_dropWhile isWhiteSpace s.data).symm
  have h2 : m = (m.reverse.dropWhile isWhiteSpace).reverse ++
      (m.reverse.takeWhile isWhiteSpace).reverse := by
    rw [← List.reverse_append, List.takeWhile_append_dropWhile, List.reverse_reverse]
  have ht : (trim s).data = (m.reverse.dropWhile isWhiteSpace).reverse := rfl
  refine ⟨s.data.takeWhile isWhiteSpace, (m.reverse.takeWhile isWhiteSpace).reverse, ?_, ?_, ?_, ?_, ?_⟩
  · rw [ht, List.append_assoc, ← h2]; exact h1
  · intro c hc
    exact List.mem_takeWhile_imp hc
  · intro c hc
    exact List.mem_takeWhile_imp (List.mem_reverse.mp hc)
  · intro c hc
    rw [ht] at hc
    have hm' : m.head? = some c := by
      rw [h2]
      cases hd : (m.reverse.dropWhile isWhiteSpace).reverse with
      | nil => rw [hd] at hc; simp at hc
      | cons a t => rw [hd] at hc; simpa using hc
    exact dropWhile_head_not isWhiteSpace s.data c hm'
  · intro c hc
    rw [ht, List.getLast?_reverse] at hc
    exact dropWhile_head_not isWhiteSpace m.reverse c hc

/-! ## Ghost overlay -/

/-- C2: with a non-empty suggestion `S` fully revealed (`displayedText = S`), the ghost
overlay shows `E ++ " " ++ S` when the entry `E` is non-empty and does not end in a space,
and `E ++ S` when `E` is empty or ends in a space. -/
theorem ghostText_revealed (E S : String) (hS : S ≠ "") :
    (E ≠ "" ∧ E.data.getLast? ≠ some ' ' → ghostText E S = E ++ " " ++ S) ∧
    (E = "" ∨ E.data.getLast? = some ' ' → ghostText E S = E ++ S) := by
  unfold ghostText
  rw [getSuggestionDisplay_eq E S hS]
  constructor
  · intro h
    simp [separator, h, String.append_assoc]
  · intro h
    have : ¬ (E ≠ "" ∧ E.data.getLast? ≠ some ' ') := by
      rintro ⟨h1, h2⟩
      rcases h with h | h
      · exact h1 h
      · exact h2 h
    simp only [separator, this, if_false]
    simp

/-- C2 witness: the overlay for entry "Hello" and for entry "Hello " with suggestion
"world". -/
theorem ghostText_revealed_witness :
    "world" ≠ "" ∧
    (("Hello" ≠ "" ∧ "Hello".data.getLast? ≠ some ' ' →
        ghostText "Hello" "world" = "Hello" ++ " " ++ "world") ∧
      ("Hello" = "" ∨ "Hello".data.getLast? = some ' ' →
        ghostText "Hello" "world" = "Hello" ++ "world")) :=
  ⟨by decide, ghostText_revealed "Hello" "world" (by decide)⟩

/-! ## Acceptance and discarding -/

theorem setEntry_entry (s : AIJournal) (v : String) : (setEntry s v).entry = v := by
  unfold setEntry
  split
  · next h => exact h.symm
  · rfl

theorem setEntry_suggestion (s : AIJournal) (v : String) :
    (setEntry s v).suggestion = s.suggestion := by
  unfold setEntry
  split <;> rfl

/-- What the Tab branch of `handleKeyDown` does for every entry and every pending
suggestion: a space is always inserted, whatever the entry ends in. -/
theorem handleKeyDown_tab (s : AIJournal) (h : s.suggestion ≠ "") :
    (handleKeyDown s "Tab").entry = s.entry ++ " " ++ s.suggestion ∧
      (handleKeyDown s "Tab").suggestion = "" := by
  simp [handleKeyDown, h, setSuggestion, setEntry_entry]

set_option maxRecDepth 1000000 in
/-- C1, evaluated at entry "Hello " with pending suggestion "world". The state is reached
from the first render by typing the entry, letting the 500 ms debounce pass and receiving
the completion " world". The overlay previews "Hello world" and the spacing policy gives the
empty separator, but Tab stores "Hello  world", with two spaces. -/
theorem handleKeyDown_tab_after_space :
    (run mount ([Event.change "Hello "] ++ List.replicate 500 Event.tick ++
        [Event.settle 0 (Outcome.resolved ⟨some [⟨⟨some " world"⟩⟩]⟩)])).entry = "Hello " ∧
    (run mount ([Event.change "Hello "] ++ List.replicate 500 Event.tick ++
        [Event.settle 0 (Outcome.resolved ⟨some [⟨⟨some " world"⟩⟩]⟩)])).suggestion = "world" ∧
    ghostText "Hello " "world" = "Hello world" ∧
    "Hello " ++ separator "Hello " ++ "world" = "Hello world" ∧
    (run mount ([Event.change "Hello "] ++ List.replicate 500 Event.tick ++
        [Event.settle 0 (Outcome.resolved ⟨some [⟨⟨some " world"⟩⟩]⟩),
         Event.keyDown "Tab"])).entry = "Hello  world" := by
  decide

/-- C3 as stated fails: with "world" pending, the ArrowLeft key (not Tab, and not editing
the text) leaves the suggestion pending. -/
theorem keystroke_arrow_keeps_suggestion :
    ({ mount with entry := "Hello", suggestion := "world" } : AIJournal).suggestion ≠ "" ∧
    "ArrowLeft" ≠ "Tab" ∧
    (keystroke { mount with entry := "Hello", suggestion := "world" } "ArrowLeft" none).suggestion
      = "world" ∧
    (keystroke { mount with entry := "Hello", suggestion := "world" } "ArrowLeft" none).suggestion
      ≠ "" := by
  decide

/-- C3 amended: for a key other than Tab, `handleKeyDown` leaves the state as it is; the
suggestion is cleared by `handleInputChange` when the keystroke changes the value of the
textarea (the entry becoming that value), and a keystroke that does not change it leaves
the whole state, the pending suggestion included, unchanged. -/
theorem keystroke_not_tab (s : AIJournal) (key : String) (hk : key ≠ "Tab") :
    handleKeyDown s key = s ∧
    keystroke s key none = s ∧
    ∀ v, (keystroke s key (some v)).suggestion = "" ∧ (keystroke s key (some v)).entry = v := by
  have h1 : handleKeyDown s key = s := by simp [handleKeyDown, hk]
  have h2 : preventsDefault s key = false := by simp [preventsDefault, hk]
  refine ⟨h1, ?_, ?_⟩
  · simp [keystroke, h1, h2]
  · intro v
    simp [keystroke, h1, h2, handleInputChange, setSuggestion, setEntry_entry]

/-- C3 witness: the key "a" typed after "Hello" with "world" pending. -/
theorem keystroke_not_tab_witness :
    "a" ≠ "Tab" ∧
    (handleKeyDown { mount with entry := "Hello", suggestion := "world" } "a"
        = { mount with entry := "Hello", suggestion := "world" } ∧
      keystroke { mount with entry := "Hello", suggestion := "world" } "a" none
        = { mount with entry := "Hello", suggestion := "world" } ∧
      ∀ v, (keystroke { mount with entry := "Hello", suggestion := "world" } "a"
            (some v)).suggestion = "" ∧
          (keystroke { mount with entry := "Hello", suggestion := "world" } "a"
            (some v)).entry = v) :=
  ⟨by decide, keystroke_not_tab _ "a" (by decide)⟩

/-! ## Settling of `getSuggestion` -/

/-- C4: when the completion call throws `e`, after `getSuggestion` settles the error is the
message of `e` when that is a non-empty string, and the fixed fallback string when the
message is absent or empty; the suggestion is what it was before the call (also when the
promise settles later, in whatever state the app is then); `isLoading` is false. -/
theorem getSuggestion_rejected (s : AIJournal) (text : String) (e : JSError) (c : Char)
    (cs : List Char) (k : Nat) :
    (getSuggestion s text (Outcome.rejected ⟨some (String.mk (c :: cs))⟩)).error
      = some (String.mk (c :: cs)) ∧
    (getSuggestion s text (Outcome.rejected ⟨none⟩)).error
      = some "An error occurred while fetching the suggestion." ∧
    (getSuggestion s text (Outcome.rejected ⟨some ""⟩)).error
      = some "An error occurred while fetching the suggestion." ∧
    (getSuggestion s text (Outcome.rejected e)).suggestion = s.suggestion ∧
    (getSuggestion s text (Outcome.rejected e)).isLoading = false ∧
    (settle s k (Outcome.rejected e)).suggestion = s.suggestion := by
  have hne : String.mk (c :: cs) ≠ "" := by
    intro h
    have := congrArg String.data h
    simp at this
  refine ⟨?_, rfl, rfl, rfl, rfl, ?_⟩
  · simp [getSuggestion, getSuggestionSettle, errorText, hne]
  · unfold settle
    split
    · split <;> rfl
    · rfl

/-- C5: when the completion call resolves with at least one candidate whose content is a
string, the suggestion becomes that first content trimmed (the other candidates play no
part), where the trimmed string is the content with only white space removed around it
and has no white space at either end; when `choices` is missing or empty the suggestion
becomes the empty string; `isLoading` is false in each case. -/
theorem getSuggestion_resolved (s : AIJournal) (text newSuggestion : String)
    (rest : List Choice) :
    (getSuggestion s text
      (Outcome.resolved ⟨some (⟨⟨some newSuggestion⟩⟩ :: rest)⟩)).suggestion
      = trim newSuggestion ∧
    (∃ pre post : List Char, newSuggestion.data = pre ++ (trim newSuggestion).data ++ post ∧
      (∀ c ∈ pre, isWhiteSpace c = true) ∧ (∀ c ∈ post, isWhiteSpace c = true) ∧
      (∀ c, (trim newSuggestion).data.head? = some c → isWhiteSpace c = false) ∧
      (∀ c, (trim newSuggestion).data.getLast? = some c → isWhiteSpace c = false)) ∧
    (getSuggestion s text
      (Outcome.resolved ⟨some (⟨⟨some newSuggestion⟩⟩ :: rest)⟩)).isLoading = false ∧
    (getSuggestion s text (Outcome.resolved ⟨none⟩)).suggestion = "" ∧
    (getSuggestion s text (Outcome.resolved ⟨none⟩)).isLoading = false ∧
    (getSuggestion s text (Outcome.resolved ⟨some []⟩)).suggestion = "" ∧
    (getSuggestion s text (Outcome.resolved ⟨some []⟩)).isLoading = false :=
  ⟨rfl, trim_spec newSuggestion, rfl, rfl, rfl, rfl, rfl⟩

/-- C8 as stated fails: with the error "Network Error" set, a call that resolves with the
candidate " ok " leaves the error set and the banner shown. -/
theorem getSuggestion_success_keeps_error :
    (getSuggestion { mount with entry := "Hi", error := some "Network Error" } "Hi"
      (Outcome.resolved ⟨some [⟨⟨some " ok "⟩⟩]⟩)).error = some "Network Error" ∧
    (getSuggestion { mount with entry := "Hi", error := some "Network Error" } "Hi"
      (Outcome.resolved ⟨some [⟨⟨some " ok "⟩⟩]⟩)).error ≠ none ∧
    errorBannerShown (getSuggestion { mount with entry := "Hi", error := some "Network Error" }
      "Hi" (Outcome.resolved ⟨some [⟨⟨some " ok "⟩⟩]⟩)) = true := by
  decide

theorem setEntry_error (s : AIJournal) (v : String) : (setEntry s v).error = s.error := by
  unfold setEntry
  split <;> rfl

theorem tick_error (s : AIJournal) : (tick s).error = s.error := by
  unfold tick
  split
  · rfl
  · split
    · unfold debounceFire
      split <;> rfl
    · rfl

theorem settle_error (s : AIJournal) (k : Nat) (o : Outcome)
    (h : ∀ s1 : AIJournal, (getSuggestionSettle s1 o).error = s1.error) :
    (settle s k o).error = s.error := by
  unfold settle
  split
  · split
    · rfl
    · exact h _
  · rfl

/-- An event changes the error state only when it settles a call into the catch block: a
rejected promise, or a response whose first candidate has `null` content. -/
theorem step_error_change (s : AIJournal) (ev : Event) (h : (step s ev).error ≠ s.error) :
    ∃ j, (∃ e, ev = Event.settle j (Outcome.rejected e)) ∨
      (∃ others, ev = Event.settle j (Outcome.resolved ⟨some (⟨⟨none⟩⟩ :: others)⟩)) := by
  cases ev with
  | tick => exact absurd (tick_error s) h
  | keyDown key =>
    exfalso
    apply h
    simp only [step, handleKeyDown]
    split
    · exact setEntry_error s _
    · rfl
  | change value => exact absurd (setEntry_error s value) h
  | newSuggestion =>
    exfalso
    apply h
    simp only [step, newSuggestionClick]
    split <;> rfl
  | clearEntry => exact absurd (setEntry_error s "") h
  | settle k o =>
    cases o with
    | rejected e => exact ⟨k, Or.inl ⟨e, rfl⟩⟩
    | resolved r =>
      rcases r with ⟨_ | cs⟩
      · exact absurd (settle_error s k (Outcome.resolved ⟨none⟩) (fun _ => rfl)) h
      · cases cs with
        | nil => exact absurd (settle_error s k (Outcome.resolved ⟨some []⟩) (fun _ => rfl)) h
        | cons c others =>
          rcases c with ⟨⟨_ | t⟩⟩
          · exact ⟨k, Or.inr ⟨others, rfl⟩⟩
          · exact absurd (settle_error s k
              (Outcome.resolved ⟨some (⟨⟨some t⟩⟩ :: others)⟩) (fun _ => rfl)) h

/-- C8 amended: a call of `getSuggestion` whose completion request succeeds, with a first
candidate of string content or without candidates, leaves the error state exactly as it
was before the call, so a banner that was shown stays shown; when the promise of call `k`
settles later, in whatever state the app is then, such a response leaves the error state
as it is at that moment; and an event of the app changes the error state only when it
settles a call into the catch block (a rejected promise, or a response whose first
candidate has `null` content). -/
theorem getSuggestion_resolved_error (s : AIJournal) (text newSuggestion : String)
    (rest : List Choice) (k : Nat) (ev : Event) :
    (getSuggestion s text
      (Outcome.resolved ⟨some (⟨⟨some newSuggestion⟩⟩ :: rest)⟩)).error = s.error ∧
    (getSuggestion s text (Outcome.resolved ⟨none⟩)).error = s.error ∧
    (getSuggestion s text (Outcome.resolved ⟨some []⟩)).error = s.error ∧
    errorBannerShown (getSuggestion s text
      (Outcome.resolved ⟨some (⟨⟨some newSuggestion⟩⟩ :: rest)⟩)) = errorBannerShown s ∧
    errorBannerShown (getSuggestion s text (Outcome.resolved ⟨none⟩)) = errorBannerShown s ∧
    errorBannerShown (getSuggestion s text (Outcome.resolved ⟨some []⟩)) = errorBannerShown s ∧
    (settle s k (Outcome.resolved ⟨some (⟨⟨some newSuggestion⟩⟩ :: rest)⟩)).error = s.error ∧
    (settle s k (Outcome.resolved ⟨none⟩)).error = s.error ∧
    (settle s k (Outcome.resolved ⟨some []⟩)).error = s.error ∧
    ((step s ev).error ≠ s.error →
      ∃ j, (∃ e, ev = Event.settle j (Outcome.rejected e)) ∨
        (∃ others, ev = Event.settle j (Outcome.resolved ⟨some (⟨⟨none⟩⟩ :: others)⟩))) :=
  ⟨rfl, rfl, rfl, rfl, rfl, rfl, settle_error s k _ (fun _ => rfl),
    settle_error s k _ (fun _ => rfl), settle_error s k _ (fun _ => rfl),
    step_error_change s ev⟩

set_option maxRecDepth 1000000 in
/-- Two overlapping calls: call 0 for "Hi" and call 1 for "Hi!" are in flight, call 1 is
rejected with the message "X", and call 0 then resolves with the candidate " ok ". The
successful call ends with the error "X" set, although no error was set when it started. -/
theorem settle_success_after_failure :
    (run mount ([Event.change "Hi"] ++ List.replicate 500 Event.tick)).error = none ∧
    (run mount ([Event.change "Hi"] ++ List.replicate 500 Event.tick ++
      [Event.change "Hi!"] ++ List.replicate 500 Event.tick ++
      [Event.settle 1 (Outcome.rejected ⟨some "X"⟩),
       Event.settle 0 (completion " ok ")])).error = some "X" ∧
    (run mount ([Event.change "Hi"] ++ List.replicate 500 Event.tick ++
      [Event.change "Hi!"] ++ List.replicate 500 Event.tick ++
      [Event.settle 1 (Outcome.rejected ⟨some "X"⟩),
       Event.settle 0 (completion " ok ")])).suggestion = "ok" := by
  decide

/-! ## Typewriter -/

theorem mk_append_charAt (S : String) (k : Nat) :
    String.mk (S.data.take k) ++ charAt S (k : Int) = String.mk (S.data.take (k + 1)) := by
  apply String.ext
  have h : ¬ ((k : Int) < 0) := by omega
  simp [charAt, h, String.data_append, List.take_add]

theorem charAt_length (S : String) (i : Int) : (charAt S i).data.length ≤ 1 := by
  unfold charAt
  split
  · simp
  · simp only [List.length_take]
    omega

theorem typewriterTick_running (deferred : Bool) (S d : String) (b : Bool) (i : Int)
    (h : i < S.length) :
    typewriterTick deferred S { displayedText := d, isTyping := b, i := i, timer := true } =
      { displayedText := d ++ charAt S (if deferred then i + 1 else i), isTyping := b,
        i := i + 1, timer := true } := by
  simp [typewriterTick, h]

theorem typewriterTick_idle (deferred : Bool) (S : String) (tw : Typewriter)
    (h : tw.timer = false) : typewriterTick deferred S tw = tw := by
  simp [typewriterTick, h]

/-- A tick never removes displayed text and adds at most one character. -/
theorem typewriterTick_grows (deferred : Bool) (S : String) (tw : Typewriter) :
    tw.displayedText.data <+: (typewriterTick deferred S tw).displayedText.data ∧
      (typewriterTick deferred S tw).displayedText.length ≤ tw.displayedText.length + 1 := by
  unfold typewriterTick
  split
  · split
    · constructor
      · show tw.displayedText.data <+: (tw.displayedText ++ _).data
        rw [String.data_append]
        exact List.prefix_append _ _
      · show (tw.displayedText ++ charAt S _).data.length ≤ tw.displayedText.data.length + 1
        rw [String.data_append, List.length_append]
        have := charAt_length S (if deferred = true then tw.i + 1 else tw.i)
        omega
    · exact ⟨List.prefix_refl _, Nat.le_succ _⟩
  · exact ⟨List.prefix_refl _, Nat.le_succ _⟩

/-- While the counter has not passed the end of the text the interval keeps running,
whatever the timing of the updaters. -/
theorem typewriterRun_counter (sched : Nat → Bool) (prev : Typewriter) (S : String)
    (hS : S ≠ "") (n : Nat) (hn : n ≤ S.length + 1) :
    (typewriterRun sched prev S n).timer = true ∧
    (typewriterRun sched prev S n).isTyping = true ∧
    (typewriterRun sched prev S n).i = (n : Int) - 1 := by
  induction n with
  | zero => simp [typewriterRun, useTypewriter, hS]
  | succ n ih =>
    obtain ⟨h1, h2, h3⟩ := ih (by omega)
    have hlt : (typewriterRun sched prev S n).i < (S.length : Int) := by omega
    show (typewriterTick (sched n) S (typewriterRun sched prev S n)).timer = true ∧
      (typewriterTick (sched n) S (typewriterRun sched prev S n)).isTyping = true ∧
      (typewriterTick (sched n) S (typewriterRun sched prev S n)).i = ((n + 1 : Nat) : Int) - 1
    simp only [typewriterTick, h1, hlt, if_true]
    refine ⟨trivial, h2, ?_⟩
    show (typewriterRun sched prev S n).i + 1 = _
    omega

/-- From tick `S.length + 2` on the interval is cleared and `isTyping` is false, whatever
the timing of the updaters. -/
theorem typewriterRun_stops (sched : Nat → Bool) (prev : Typewriter) (S : String)
    (hS : S ≠ "") (n : Nat) (hn : S.length + 2 ≤ n) :
    (typewriterRun sched prev S n).timer = false ∧
    (typewriterRun sched prev S n).isTyping = false ∧
    (typewriterRun sched prev S n).displayedText
      = (typewriterRun sched prev S (S.length + 1)).displayedText := by
  induction n with
  | zero => omega
  | succ n ih =>
    show (typewriterTick (sched n) S (typewriterRun sched prev S n)).timer = false ∧
      (typewriterTick (sched n) S (typewriterRun sched prev S n)).isTyping = false ∧
      (typewriterTick (sched n) S (typewriterRun sched prev S n)).displayedText = _
    rcases Nat.lt_or_ge n (S.length + 2) with h | h
    · have hn1 : n = S.length + 1 := by omega
      obtain ⟨h1, _, h3⟩ := typewriterRun_counter sched prev S hS n (by omega)
      have hge : ¬ ((typewriterRun sched prev S n).i < (S.length : Int)) := by omega
      simp only [typewriterTick, h1, hge, if_true, if_false]
      subst hn1
      exact ⟨trivial, trivial, rfl⟩
    · obtain ⟨h1, h2, h3⟩ := ih h
      rw [typewriterTick_idle _ S _ h1]
      exact ⟨h1, h2, h3⟩

/-- The displayed text when every updater is run at the same point: the first `n`
characters of the text when all run at the next render, the first `n - 1` when all run at
the call. -/
theorem typewriterRun_uniform (deferred : Bool) (prev : Typewriter) (S : String)
    (hS : S ≠ "") (n : Nat) (hn : n ≤ S.length + 1) :
    (typewriterRun (fun _ => deferred) prev S n).displayedText
      = String.mk (S.data.take (if deferred then n else n - 1)) := by
  induction n with
  | zero => cases deferred <;> simp [typewriterRun, useTypewriter, hS]
  | succ n ih =>
    have ih := ih (by omega)
    obtain ⟨h1, _, h3⟩ := typewriterRun_counter (fun _ => deferred) prev S hS n (by omega)
    have hlt : (typewriterRun (fun _ => deferred) prev S n).i < (S.length : Int) := by omega
    show (typewriterTick deferred S (typewriterRun (fun _ => deferred) prev S n)).displayedText = _
    simp only [typewriterTick, h1, hlt, if_true]
    show (typewriterRun (fun _ => deferred) prev S n).displayedText ++ charAt S _ = _
    rw [ih, h3]
    cases deferred with
    | true =>
      have hn1 : (n : Int) - 1 + 1 = (n : Int) := by omega
      simp only [if_true, hn1]
      exact mk_append_charAt S n
    | false =>
      cases n with
      | zero => simp [charAt]
      | succ m =>
        have hm : ((m + 1 : Nat) : Int) - 1 = (m : Int) := by omega
        simp only [Bool.false_eq_true, if_false, hm, Nat.add_sub_cancel]
        exact mk_append_charAt S m

/-- When every updater is run at the same point the whole text is revealed: the displayed
text is a prefix of `S` after every tick and equals `S` once the interval has cleared
itself. -/
theorem typewriterRun_uniform_reveal (deferred : Bool) (prev : Typewriter) (S : String)
    (hS : S ≠ "") :
    (∀ n, (typewriterRun (fun _ => deferred) prev S n).displayedText.data <+: S.data) ∧
    (∀ n, S.length + 2 ≤ n →
      (typewriterRun (fun _ => deferred) prev S n).timer = false ∧
      (typewriterRun (fun _ => deferred) prev S n).displayedText = S ∧
      (typewriterRun (fun _ => deferred) prev S n).isTyping = false) := by
  have hfull : (typewriterRun (fun _ => deferred) prev S (S.length + 1)).displayedText = S := by
    rw [typewriterRun_uniform deferred prev S hS _ (le_refl _)]
    apply String.ext
    have hl : S.data.length = S.length := rfl
    cases deferred
    · simp only [Bool.false_eq_true, if_false, Nat.add_sub_cancel]
      exact List.take_of_length_le (by omega)
    · simp only [if_true]
      exact List.take_of_length_le (by omega)
  constructor
  · intro n
    rcases Nat.lt_or_ge n (S.length + 2) with h | h
    · rw [typewriterRun_uniform deferred prev S hS n (by omega)]
      exact List.take_prefix _ _
    · rw [(typewriterRun_stops _ prev S hS n h).2.2, hfull]
  · intro n hn
    obtain ⟨h1, h2, h3⟩ := typewriterRun_stops (fun _ => deferred) prev S hS n hn
    exact ⟨h1, by rw [h3, hfull], h2⟩

/-- C9, evaluated at the suggestion "bought milk" arriving after a reveal that was cut
short (displayed text empty, `isTyping` still true), with the updaters of the first two
ticks run at the call and the later ones at the next render: the text starts empty with
the interval running, after three ticks it is "bu", which is not a prefix of the
suggestion, and when the interval has cleared itself after 13 ticks the displayed text is
"bught milk": the character "o" was skipped. -/
theorem typewriterRun_skips_character :
    (useTypewriter (typewriterRun (fun _ => true) Typewriter.initial "world" 2) "").displayedText
      = "" ∧
    (useTypewriter (typewriterRun (fun _ => true) Typewriter.initial "world" 2) "").isTyping
      = true ∧
    (typewriterRun eagerTwice
      (useTypewriter (typewriterRun (fun _ => true) Typewriter.initial "world" 2) "")
      "bought milk" 0).displayedText = "" ∧
    (typewriterRun eagerTwice
      (useTypewriter (typewriterRun (fun _ => true) Typewriter.initial "world" 2) "")
      "bought milk" 2).displayedText = "b" ∧
    (typewriterRun eagerTwice
      (useTypewriter (typewriterRun (fun _ => true) Typewriter.initial "world" 2) "")
      "bought milk" 3).displayedText = "bu" ∧
    ¬ ("bu".data <+: "bought milk".data) ∧
    (typewriterRun eagerTwice
      (useTypewriter (typewriterRun (fun _ => true) Typewriter.initial "world" 2) "")
      "bought milk" 13).timer = false ∧
    (typewriterRun eagerTwice
      (useTypewriter (typewriterRun (fun _ => true) Typewriter.initial "world" 2) "")
      "bought milk" 13).isTyping = false ∧
    (typewriterRun eagerTwice
      (useTypewriter (typewriterRun (fun _ => true) Typewriter.initial "world" 2) "")
      "bought milk" 13).displayedText = "bught milk" ∧
    "bught milk" ≠ "bought milk" := by
  decide

/-! ## Debounce -/

theorem tick_idle (s : AIJournal) (h : s.debounce = none) : tick s = s := by
  simp [tick, h]

theorem advance_idle (s : AIJournal) (h : s.debounce = none) (n : Nat) : advance n s = s :=
  Function.iterate_fixed (tick_idle s h) n

theorem debounceFire_debounce (s : AIJournal) (text : String) :
    (debounceFire s text).debounce = s.debounce := by
  unfold debounceFire
  split <;> rfl

theorem advance_pending (s : AIJournal) (r : Nat) (text : String)
    (h : s.debounce = some ⟨r, text⟩) (n : Nat) (hn : n < r) :
    advance n s = { s with debounce := some ⟨r - n, text⟩ } := by
  induction n with
  | zero => simp [advance, ← h]
  | succ n ih =>
    have ih := ih (by omega)
    unfold advance at ih ⊢
    rw [Function.iterate_succ_apply', ih]
    have h1 : ¬ (r - n ≤ 1) := by omega
    simp [tick, h1, Nat.sub_add_eq]

theorem advance_fire (s : AIJournal) (r : Nat) (text : String)
    (h : s.debounce = some ⟨r, text⟩) (n : Nat) (hn : r ≤ n) (hpos : 0 < n) :
    advance n s = debounceFire { s with debounce := none } text := by
  rcases Nat.eq_zero_or_pos r with hr | hr
  · obtain ⟨m, rfl⟩ : ∃ m, n = m + 1 := ⟨n - 1, by omega⟩
    unfold advance
    rw [Function.iterate_succ_apply]
    have ht : tick s = debounceFire { s with debounce := none } text := by
      simp [tick, h, hr]
    rw [ht]
    exact advance_idle _ (by rw [debounceFire_debounce]) m
  · obtain ⟨m, rfl⟩ : ∃ m, n = m + 1 + (r - 1) := ⟨n - r, by omega⟩
    unfold advance
    rw [Function.iterate_add_apply, Function.iterate_succ_apply]
    have hp := advance_pending s r text h (r - 1) (by omega)
    unfold advance at hp
    rw [hp]
    have h1 : r - (r - 1) = 1 := by omega
    have ht : tick { s with debounce := some ⟨r - (r - 1), text⟩ }
        = debounceFire { s with debounce := none } text := by
      simp [tick, h1]
    rw [ht]
    exact advance_idle _ (by rw [debounceFire_debounce]) m

theorem setEntry_cases (s : AIJournal) (v : String) :
    setEntry s v = s ∨
      (v ≠ s.entry ∧ setEntry s v = { s with entry := v, debounce := some ⟨debounceDelay, v⟩ }) := by
  unfold setEntry
  split
  · exact Or.inl rfl
  · next h => exact Or.inr ⟨h, rfl⟩

theorem getSuggestionSettle_fields (s : AIJournal) (o : Outcome) :
    (getSuggestionSettle s o).entry = s.entry ∧
    (getSuggestionSettle s o).debounce = s.debounce ∧
    (getSuggestionSettle s o).calls = s.calls := by
  unfold getSuggestionSettle
  split
  · split
    · split <;> exact ⟨rfl, rfl, rfl⟩
    · exact ⟨rfl, rfl, rfl⟩
  · exact ⟨rfl, rfl, rfl⟩

theorem settle_fields (s : AIJournal) (k : Nat) (o : Outcome) :
    (settle s k o).entry = s.entry ∧ (settle s k o).debounce = s.debounce := by
  unfold settle
  split
  · split
    · exact ⟨rfl, rfl⟩
    · exact ⟨(getSuggestionSettle_fields _ o).1, (getSuggestionSettle_fields _ o).2.1⟩
  · exact ⟨rfl, rfl⟩

theorem debounceFire_entry (s : AIJournal) (text : String) :
    (debounceFire s text).entry = s.entry := by
  unfold debounceFire
  split <;> rfl

theorem tick_entry (s : AIJournal) : (tick s).entry = s.entry := by
  unfold tick
  split
  · rfl
  · split
    · rw [debounceFire_entry]
    · rfl

theorem advance_entry (s : AIJournal) (n : Nat) : (advance n s).entry = s.entry := by
  induction n with
  | zero => rfl
  | succ n ih =>
    unfold advance at ih ⊢
    rw [Function.iterate_succ_apply', tick_entry, ih]

/-- An event that changes the entry arms a fresh timeout for the new entry and issues no
call. -/
theorem step_entry_change (s : AIJournal) (ev : Event) (h : (step s ev).entry ≠ s.entry) :
    (step s ev).debounce = some ⟨debounceDelay, (step s ev).entry⟩ ∧
      (step s ev).calls = s.calls := by
  have key : ∀ v x, (setSuggestion (setEntry s v) x).entry ≠ s.entry →
      (setSuggestion (setEntry s v) x).debounce
          = some ⟨debounceDelay, (setSuggestion (setEntry s v) x).entry⟩ ∧
        (setSuggestion (setEntry s v) x).calls = s.calls := by
    intro v x hv
    rcases setEntry_cases s v with h1 | ⟨_, h1⟩
    · rw [h1] at hv; exact absurd rfl hv
    · rw [h1]; exact ⟨rfl, rfl⟩
  cases ev with
  | tick => exact absurd (tick_entry s) h
  | keyDown key' =>
    simp only [step, handleKeyDown] at h ⊢
    split at h
    · rw [if_pos (by assumption)]; exact key _ _ h
    · exact absurd rfl h
  | change value => exact key _ _ h
  | newSuggestion =>
    simp only [step, newSuggestionClick] at h
    split at h <;> exact absurd rfl h
  | clearEntry => exact key _ _ h
  | settle k o => exact absurd (settle_fields s k o).1 h

theorem consistent_step (s : AIJournal) (ev : Event) (hc : Consistent s) :
    Consistent (step s ev) := by
  by_cases h : (step s ev).entry = s.entry
  · intro t ht
    rw [h]
    cases ev with
    | tick =>
      simp only [step, tick] at ht
      split at ht
      · exact hc t ht
      · next t0 h0 =>
        split at ht
        · rw [debounceFire_debounce] at ht; exact absurd ht (by simp)
        · simp only [Option.some.injEq] at ht
          subst ht
          exact hc t0 h0
    | keyDown key' =>
      simp only [step, handleKeyDown] at ht h
      split at ht
      · rw [if_pos (by assumption)] at h
        rcases setEntry_cases s (s.entry ++ " " ++ s.suggestion) with h1 | ⟨_, h1⟩
        · rw [h1] at ht; exact hc t ht
        · rw [h1] at ht h
          simp only [setSuggestion, Option.some.injEq] at ht h
          subst ht
          exact h
      · exact hc t ht
    | change value =>
      simp only [step, handleInputChange] at ht h
      rcases setEntry_cases s value with h1 | ⟨_, h1⟩
      · rw [h1] at ht; exact hc t ht
      · rw [h1] at ht h
        simp only [setSuggestion, Option.some.injEq] at ht h
        subst ht
        exact h
    | newSuggestion =>
      simp only [step, newSuggestionClick] at ht
      split at ht <;> exact hc t ht
    | clearEntry =>
      simp only [step, clearEntryClick] at ht h
      rcases setEntry_cases s "" with h1 | ⟨_, h1⟩
      · rw [h1] at ht; exact hc t ht
      · rw [h1] at ht h
        simp only [setSuggestion, Option.some.injEq] at ht h
        subst ht
        exact h
    | settle k o =>
      simp only [step] at ht
      rw [(settle_fields s k o).2] at ht
      exact hc t ht
  · intro t ht
    rw [(step_entry_change s ev h).1] at ht
    simp only [Option.some.injEq] at ht
    subst ht
    rfl

/-- In every state reached from the first render, a pending debounce timeout captured the
current entry. -/
theorem consistent_run (es : List Event) : Consistent (run mount es) := by
  have gen : ∀ (es : List Event) (s : AIJournal), Consistent s → Consistent (run s es) := by
    intro es
    induction es with
    | nil => intro s hs; exact hs
    | cons e es ih => intro s hs; exact ih (step s e) (consistent_step s e hs)
  apply gen
  intro t ht
  simp only [mount, Option.some.injEq] at ht
  subst ht
  rfl

theorem length_pos_iff (s : String) : s.length > 0 ↔ s ≠ "" := by
  rcases s with ⟨d⟩
  cases d with
  | nil => simp
  | cons a t =>
    constructor
    · intro _ h
      have := congrArg String.data h
      simp at this
    · intro _
      show (a :: t).length > 0
      simp

theorem debounceFire_calls (s : AIJournal) (text : String) :
    (debounceFire s text).calls
      = s.calls ++ (if text ≠ "" then [⟨createRequest text, false⟩] else []) := by
  unfold debounceFire
  by_cases h : text ≠ ""
  · rw [if_pos ((length_pos_iff text).2 h), if_pos h]; rfl
  · have h2 : ¬ (text.length > 0) := fun hl => h ((length_pos_iff text).1 hl)
    rw [if_neg h2, if_neg h]; simp [setSuggestion]

/-- Calls issued while a timeout armed with the full delay runs down undisturbed: none
before the delay has passed, then one for the captured text when that is non-empty. -/
theorem advance_armed_calls (s : AIJournal) (text : String)
    (h : s.debounce = some ⟨debounceDelay, text⟩) (n : Nat) :
    (advance n s).calls
      = s.calls ++ (if 500 ≤ n ∧ text ≠ "" then [⟨createRequest text, false⟩] else []) := by
  rcases Nat.lt_or_ge n 500 with hn | hn
  · rw [advance_pending s debounceDelay text h n hn]
    have : ¬ (500 ≤ n ∧ text ≠ "") := fun hh => absurd hh.1 (by omega)
    rw [if_neg this]; simp
  · rw [advance_fire s debounceDelay text h n hn (by omega), debounceFire_calls]
    by_cases ht : text ≠ ""
    · rw [if_pos ht, if_pos ⟨hn, ht⟩]
    · rw [if_neg ht, if_neg (fun hh => ht hh.2)]

/-- C6: when an event makes the entry a new non-empty string `E`, then with no other event
no completion call is issued during the first 499 ms, and from 500 ms on exactly one has
been issued, whose user prompt is the fixed instruction followed by `E`. An event that
changes the entry again before the 500 ms are over arms a timeout with the full delay for
the new entry, and from then on the only call issued is the one for the new entry, once
500 ms have passed since the second change (none when the new entry is empty): there is no
call for `E`. -/
theorem debounce_request (s : AIJournal) (ev : Event) (E : String) (hE : E ≠ "")
    (hbecomes : (step s ev).entry = E) (hchg : s.entry ≠ E) :
    (∀ n, n < 500 → (advance n (step s ev)).calls = s.calls) ∧
    (∀ n, 500 ≤ n → (advance n (step s ev)).calls = s.calls ++ [⟨createRequest E, false⟩]) ∧
    (createRequest E).user = promptHead ++ E ∧
    (∀ d ev2, d < 500 → (step (advance d (step s ev)) ev2).entry ≠ E →
      (step (advance d (step s ev)) ev2).debounce
        = some ⟨500, (step (advance d (step s ev)) ev2).entry⟩ ∧
      ∀ n, (advance n (step (advance d (step s ev)) ev2)).calls
        = s.calls ++
          (if 500 ≤ n ∧ (step (advance d (step s ev)) ev2).entry ≠ "" then
            [⟨createRequest (step (advance d (step s ev)) ev2).entry, false⟩] else [])) := by
  have h1 := step_entry_change s ev (by rw [hbecomes]; exact fun h => hchg h.symm)
  rw [hbecomes] at h1
  obtain ⟨harm, hcalls⟩ := h1
  refine ⟨?_, ?_, rfl, ?_⟩
  · intro n hn
    rw [advance_armed_calls _ E harm n, hcalls]
    have : ¬ (500 ≤ n ∧ E ≠ "") := fun hh => absurd hh.1 (by omega)
    rw [if_neg this]; simp
  · intro n hn
    rw [advance_armed_calls _ E harm n, hcalls, if_pos ⟨hn, hE⟩]
  · intro d ev2 hd h2
    have hsd : advance d (step s ev) = { step s ev with debounce := some ⟨500 - d, E⟩ } :=
      advance_pending _ debounceDelay E harm d hd
    have hent : (advance d (step s ev)).entry = E := by rw [advance_entry, hbecomes]
    have h3 := step_entry_change (advance d (step s ev)) ev2 (by rw [hent]; exact h2)
    refine ⟨h3.1, ?_⟩
    intro n
    rw [advance_armed_calls _ _ h3.1 n, h3.2, hsd]
    show (step s ev).calls ++ _ = _
    rw [hcalls]

/-- C6 witness: from the first render the entry becomes "Hi". -/
theorem debounce_request_witness :
    "Hi" ≠ "" ∧ (step mount (Event.change "Hi")).entry = "Hi" ∧ mount.entry ≠ "Hi" ∧
    ((∀ n, n < 500 → (advance n (step mount (Event.change "Hi"))).calls = mount.calls) ∧
    (∀ n, 500 ≤ n → (advance n (step mount (Event.change "Hi"))).calls
      = mount.calls ++ [⟨createRequest "Hi", false⟩]) ∧
    (createRequest "Hi").user = promptHead ++ "Hi" ∧
    (∀ d ev2, d < 500 → (step (advance d (step mount (Event.change "Hi"))) ev2).entry ≠ "Hi" →
      (step (advance d (step mount (Event.change "Hi"))) ev2).debounce
        = some ⟨500, (step (advance d (step mount (Event.change "Hi"))) ev2).entry⟩ ∧
      ∀ n, (advance n (step (advance d (step mount (Event.change "Hi"))) ev2)).calls
        = mount.calls ++
          (if 500 ≤ n ∧ (step (advance d (step mount (Event.change "Hi"))) ev2).entry ≠ "" then
            [⟨createRequest (step (advance d (step mount (Event.change "Hi"))) ev2).entry, false⟩]
          else []))) :=
  ⟨by decide, by decide, by decide,
    debounce_request mount (Event.change "Hi") "Hi" (by decide) (by decide) (by decide)⟩

theorem advance_empty (s : AIJournal) (r : Nat) (h : s.debounce = some ⟨r, ""⟩) (n : Nat) :
    advance n s = s ∨ advance n s = { s with debounce := some ⟨r - n, ""⟩ } ∨
      advance n s = { s with suggestion := "", debounce := none } := by
  rcases Nat.lt_or_ge n r with hn | hn
  · exact Or.inr (Or.inl (advance_pending s r "" h n hn))
  · rcases Nat.eq_zero_or_pos n with h0 | h0
    · subst h0; exact Or.inl rfl
    · exact Or.inr (Or.inr (advance_fire s r "" h n hn h0))

/-- C7: in every state reached from the first render in which the entry is empty, no
amount of elapsed time makes the debounce effect issue a completion call, and entry, error
and `isLoading` stay as they are; the tick on which the timeout fires only sets the
suggestion to the empty string (and leaves no timeout pending). -/
theorem debounce_empty_entry (es : List Event) (he : (run mount es).entry = "") :
    (∀ n, (advance n (run mount es)).calls = (run mount es).calls ∧
      (advance n (run mount es)).entry = "" ∧
      (advance n (run mount es)).error = (run mount es).error ∧
      (advance n (run mount es)).isLoading = (run mount es).isLoading) ∧
    (∀ t, (run mount es).debounce = some t → t.remaining ≤ 1 →
      tick (run mount es) = { run mount es with suggestion := "", debounce := none }) := by
  have hc := consistent_run es
  constructor
  · intro n
    cases hd : (run mount es).debounce with
    | none =>
      rw [advance_idle _ hd]
      exact ⟨rfl, he, rfl, rfl⟩
    | some t =>
      have ht : t.text = "" := by rw [hc t hd, he]
      have hd2 : (run mount es).debounce = some ⟨t.remaining, ""⟩ := by rw [hd, ← ht]
      rcases advance_empty _ t.remaining hd2 n with h | h | h <;> rw [h] <;>
        exact ⟨rfl, he, rfl, rfl⟩
  · intro t hd hr
    have ht : t.text = "" := by rw [hc t hd, he]
    simp [tick, hd, hr, ht, debounceFire, setSuggestion]

/-- C7 witness: the first render, where the entry is empty. -/
theorem debounce_empty_entry_witness :
    (run mount []).entry = "" ∧
    ((∀ n, (advance n (run mount [])).calls = (run mount []).calls ∧
      (advance n (run mount [])).entry = "" ∧
      (advance n (run mount [])).error = (run mount []).error ∧
      (advance n (run mount [])).isLoading = (run mount []).isLoading) ∧
    (∀ t, (run mount []).debounce = some t → t.remaining ≤ 1 →
      tick (run mount []) = { run mount [] with suggestion := "", debounce := none })) :=
  ⟨by decide, debounce_empty_entry [] (by decide)⟩

/-! ## Responses that arrive late -/

theorem run_append (s : AIJournal) (es fs : List Event) :
    run s (es ++ fs) = run (run s es) fs := by
  simp [run, List.foldl_append]

theorem run_replicate_tick (n : Nat) (s : AIJournal) :
    run s (List.replicate n Event.tick) = advance n s := by
  induction n generalizing s with
  | zero => rfl
  | succ n ih =>
    show run (step s Event.tick) (List.replicate n Event.tick) = _
    rw [ih]
    rfl

theorem settle_pending (s : AIJournal) (k : Nat) (c : Call) (content : String)
    (hk : s.calls[k]? = some c) (hc : c.settled = false) :
    settle s k (completion content) =
      { s with suggestion := trim content, isLoading := false,
               calls := s.calls.set k { c with settled := true } } := by
  simp [settle, hk, hc, completion, getSuggestionSettle, setSuggestion]

/-- The state in which a request for `E1` is in flight and the entry has become `E2`. -/
theorem run_overtaken (E1 E2 : String) (h1 : E1 ≠ "") (h12 : E2 ≠ E1) :
    run mount ([Event.change E1] ++ List.replicate 500 Event.tick ++ [Event.change E2]) =
      { entry := E2, suggestion := "", darkMode := false, error := none, isLoading := true,
        debounce := some ⟨500, E2⟩, calls := [⟨createRequest E1, false⟩] } := by
  rw [run_append, run_append, run_replicate_tick]
  have hs1 : run mount [Event.change E1] =
      { mount with entry := E1, debounce := some ⟨debounceDelay, E1⟩ } := by
    have : ¬ (E1 = mount.entry) := h1
    simp [run, step, handleInputChange, setEntry, this, setSuggestion]
    rfl
  rw [hs1, advance_fire _ debounceDelay E1 rfl 500 (by decide) (by decide)]
  have hl : E1.length > 0 := (length_pos_iff E1).2 h1
  simp [run, step, handleInputChange, setEntry, setSuggestion, debounceFire, hl,
    getSuggestionCall, h12, mount, debounceDelay]

/-- Of two pending calls, the one whose response arrives last decides the suggestion. -/
theorem settle_last_wins (s : AIJournal) (i j : Nat) (ci cj : Call) (a b : String)
    (hij : i ≠ j) (hi : s.calls[i]? = some ci) (hci : ci.settled = false)
    (hj : s.calls[j]? = some cj) (hcj : cj.settled = false) :
    (settle (settle s j (completion b)) i (completion a)).suggestion = trim a := by
  rw [settle_pending s j cj b hj hcj]
  refine (congrArg AIJournal.suggestion (settle_pending _ i ci a ?_ hci)).trans rfl
  show (s.calls.set j { cj with settled := true })[i]? = some ci
  rw [List.getElem?_set_ne (fun h => hij h.symm)]
  exact hi

/-- The state in which the requests for `E1` and for `E2` are both in flight. -/
theorem run_overlapping (E1 E2 : String) (h1 : E1 ≠ "") (h12 : E2 ≠ E1) (h2 : E2 ≠ "") :
    run mount ([Event.change E1] ++ List.replicate 500 Event.tick ++ [Event.change E2] ++
        List.replicate 500 Event.tick) =
      { entry := E2, suggestion := "", darkMode := false, error := none, isLoading := true,
        debounce := none, calls := [⟨createRequest E1, false⟩, ⟨createRequest E2, false⟩] } := by
  rw [run_append, run_overtaken E1 E2 h1 h12, run_replicate_tick,
    advance_fire _ 500 E2 rfl 500 (by decide) (by decide)]
  have hl : E2.length > 0 := (length_pos_iff E2).2 h2
  simp [debounceFire, hl, getSuggestionCall]

/-- C10: the entry becomes `E1`, the debounce issues the request for `E1`, the entry is
changed to `E2`, which leaves the suggestion empty with the request still in flight, and
then the response for `E1` arrives: the app is in a state whose entry is `E2` and whose
suggestion is the non-empty trimmed response to the request for `E1`. When the requests
for `E1` and `E2` are both in flight, the suggestion after both responses is that of the
response that arrived last, in either order; and so it is for any two pending calls of any
state. -/
theorem stale_response_wins (E1 E2 content : String) (h1 : E1 ≠ "") (h12 : E2 ≠ E1)
    (hc : trim content ≠ "") :
    run mount ([Event.change E1] ++ List.replicate 500 Event.tick ++ [Event.change E2]) =
      { entry := E2, suggestion := "", darkMode := false, error := none, isLoading := true,
        debounce := some ⟨500, E2⟩, calls := [⟨createRequest E1, false⟩] } ∧
    run mount ([Event.change E1] ++ List.replicate 500 Event.tick ++ [Event.change E2] ++
        [Event.settle 0 (completion content)]) =
      { entry := E2, suggestion := trim content, darkMode := false, error := none,
        isLoading := false, debounce := some ⟨500, E2⟩,
        calls := [⟨createRequest E1, true⟩] } ∧
    (run mount ([Event.change E1] ++ List.replicate 500 Event.tick ++ [Event.change E2] ++
        [Event.settle 0 (completion content)])).suggestion ≠ "" ∧
    (E2 ≠ "" → ∀ a b : String,
      (run mount ([Event.change E1] ++ List.replicate 500 Event.tick ++ [Event.change E2] ++
        List.replicate 500 Event.tick)).calls
          = [⟨createRequest E1, false⟩, ⟨createRequest E2, false⟩] ∧
      (run mount ([Event.change E1] ++ List.replicate 500 Event.tick ++ [Event.change E2] ++
        List.replicate 500 Event.tick ++
        [Event.settle 1 (completion b), Event.settle 0 (completion a)])).suggestion = trim a ∧
      (run mount ([Event.change E1] ++ List.replicate 500 Event.tick ++ [Event.change E2] ++
        List.replicate 500 Event.tick ++
        [Event.settle 0 (completion a), Event.settle 1 (completion b)])).suggestion = trim b) ∧
    (∀ (s : AIJournal) (i j : Nat) (ci cj : Call) (a b : String), i < j →
      s.calls[i]? = some ci → ci.settled = false → s.calls[j]? = some cj → cj.settled = false →
      (settle (settle s j (completion b)) i (completion a)).suggestion = trim a ∧
      (settle (settle s i (completion a)) j (completion b)).suggestion = trim b) := by
  have hstale : run mount ([Event.change E1] ++ List.replicate 500 Event.tick ++
      [Event.change E2] ++ [Event.settle 0 (completion content)]) =
      { entry := E2, suggestion := trim content, darkMode := false, error := none,
        isLoading := false, debounce := some ⟨500, E2⟩,
        calls := [⟨createRequest E1, true⟩] } := by
    rw [run_append, run_overtaken E1 E2 h1 h12]
    simp only [run, List.foldl, step]
    refine (settle_pending _ 0 ⟨createRequest E1, false⟩ content ?_ ?_).trans ?_ <;> rfl
  refine ⟨run_overtaken E1 E2 h1 h12, hstale, ?_, ?_, ?_⟩
  · rw [hstale]; exact hc
  · intro h2 a b
    refine ⟨?_, ?_, ?_⟩
    · rw [run_overlapping E1 E2 h1 h12 h2]
    · rw [run_append, run_overlapping E1 E2 h1 h12 h2]
      simp only [run, List.foldl, step]
      refine settle_last_wins _ 0 1 ⟨createRequest E1, false⟩ ⟨createRequest E2, false⟩ a b
        (by decide) ?_ ?_ ?_ ?_ <;> rfl
    · rw [run_append, run_overlapping E1 E2 h1 h12 h2]
      simp only [run, List.foldl, step]
      refine settle_last_wins _ 1 0 ⟨createRequest E2, false⟩ ⟨createRequest E1, false⟩ b a
        (by decide) ?_ ?_ ?_ ?_ <;> rfl
  · intro s i j ci cj a b hij hi hci hj hcj
    exact ⟨settle_last_wins s i j ci cj a b (by omega) hi hci hj hcj,
      settle_last_wins s j i cj ci b a (by omega) hj hcj hi hci⟩

/-- C10 witness: the entry "I went" is overtaken by "I went to" and the response " home "
for the first arrives afterwards. -/
theorem stale_response_wins_witness :
    "I went" ≠ "" ∧ "I went to" ≠ "I went" ∧ trim " home " ≠ "" ∧
    (run mount ([Event.change "I went"] ++ List.replicate 500 Event.tick ++
        [Event.change "I went to"]) =
      { entry := "I went to", suggestion := "", darkMode := false, error := none,
        isLoading := true, debounce := some ⟨500, "I went to"⟩,
        calls := [⟨createRequest "I went", false⟩] } ∧
    run mount ([Event.change "I went"] ++ List.replicate 500 Event.tick ++
        [Event.change "I went to"] ++ [Event.settle 0 (completion " home ")]) =
      { entry := "I went to", suggestion := trim " home ", darkMode := false, error := none,
        isLoading := false, debounce := some ⟨500, "I went to"⟩,
        calls := [⟨createRequest "I went", true⟩] } ∧
    (run mount ([Event.change "I went"] ++ List.replicate 500 Event.tick ++
        [Event.change "I went to"] ++ [Event.settle 0 (completion " home ")])).suggestion ≠ "" ∧
    ("I went to" ≠ "" → ∀ a b : String,
      (run mount ([Event.change "I went"] ++ List.replicate 500 Event.tick ++
        [Event.change "I went to"] ++ List.replicate 500 Event.tick)).calls
          = [⟨createRequest "I went", false⟩, ⟨createRequest "I went to", false⟩] ∧
      (run mount ([Event.change "I went"] ++ List.replicate 500 Event.tick ++
        [Event.change "I went to"] ++ List.replicate 500 Event.tick ++
        [Event.settle 1 (completion b), Event.settle 0 (completion a)])).suggestion = trim a ∧
      (run mount ([Event.change "I went"] ++ List.replicate 500 Event.tick ++
        [Event.change "I went to"] ++ List.replicate 500 Event.tick ++
        [Event.settle 0 (completion a), Event.settle 1 (completion b)])).suggestion = trim b) ∧
    (∀ (s : AIJournal) (i j : Nat) (ci cj : Call) (a b : String), i < j →
      s.calls[i]? = some ci → ci.settled = false → s.calls[j]? = some cj → cj.settled = false →
      (settle (settle s j (completion b)) i (completion a)).suggestion = trim a ∧
      (settle (settle s i (completion a)) j (completion b)).suggestion = trim b)) :=
  ⟨by decide, by decide, by decide,
    stale_response_wins "I went" "I went to" " home " (by decide) (by decide) (by decide)⟩

end Journal
